import Mathlib

/-!
Verification of the bank-csv-normalizer core: the duplicate classification
engine (`src/engine/core/duplicate_index.py`), the snapshot/backup machinery,
and the finalization coordinator (`src/engine/core/completion.py`), together
with the inline duplicate decision of `src/engine/process_csv.py`.

The embedding is shallow:
- a Python `dict` of strings (one CSV row / record) is an association list
  `Record := List (String × String)`; `dict.get(k, d)` is first-binding lookup
  with a default;
- the duplicate index (`defaultdict(list)`) is an association list from keys
  to lists of records;
- the filesystem is a flat map from path strings to file contents
  (`FS := List (String × String)`); directories are implicit in path prefixes;
- fallible file operations (shutil.move / shutil.copyfile / open) take an
  `OpResult` directive describing the environment: the operation succeeds,
  raises before touching its destination, or (for copy-type operations, which
  CPython implements as truncate-then-write) raises after leaving a partial
  destination;
- logging, email notification and `sys.exit` are modelled as an event trace;
  per the spec, log and notification delivery absorb their own errors, so they
  always succeed in the model.
-/

namespace BankCsv

/-- First-binding lookup in an association list, the model of a Python dict
access `d[k]` / `d.get(k)`. Python dicts hold one binding per key; the first
binding wins when a raw list carries shadowed keys. -/
def alistGet? {α : Type} : List (String × α) → String → Option α
  | [], _ => none
  | (k, v) :: rest, f => if k = f then some v else alistGet? rest f

/-- One normalized CSV row: an ordered mapping of field names to string
values, as produced by csv.DictReader. -/
abbrev Record := List (String × String)

/-- The in-memory duplicate index: duplicate_key mapped to the list of stored
rows with that key (Python `DefaultDict[str, List[Dict[str, str]]]`). -/
abbrev DupIndex := List (String × List Record)

/-- Model of Python `row.get(field, "")`: the stored string, or the empty
string when the field is absent. -/
def pyGetStr (r : Record) (f : String) : String :=
  (alistGet? r f).getD ""

/-- Model of Python `str.strip()` with no argument: remove whitespace from
both ends. Defined over the character list so that it evaluates inside the
kernel. -/
def pyStrip (s : String) : String :=
  String.mk (((s.data.dropWhile Char.isWhitespace).reverse.dropWhile
    Char.isWhitespace).reverse)

/-- Model of `duplicate_index.get(key, [])`. -/
def idxGet (idx : DupIndex) (key : String) : List Record :=
  (alistGet? idx key).getD []

/-- The slice of a YAML bank configuration that `classify_duplicate` reads:
`list(bank_config["columns"]["required"].keys())`, the ordered names of the
configured required fields. -/
structure BankConfig where
  requiredFields : List String

/-- The inner loop of `classify_duplicate` (duplicate_index.py lines 194-201):
true iff every configured required field of `existing` equals the candidate
`row`'s field under trimmed string equality, breaking out at the first
mismatch. -/
def requiredMatch (required : List String) (existing row : Record) : Bool :=
  required.all fun f => pyStrip (pyGetStr existing f) == pyStrip (pyGetStr row f)

/-- The entry loop of `classify_duplicate` (duplicate_index.py lines 194-206):
the first stored entry achieving a full required-field match yields
"identical"; if the loop finishes, "conflict". -/
def classifyRows (required : List String) (row : Record) : List Record → String
  | [] => "conflict"
  | existing :: rest =>
      if requiredMatch required existing row then "identical"
      else classifyRows required row rest

/-- `classify_duplicate` (duplicate_index.py lines 173-206): classify a row
against the duplicate index. "new" when no entries are stored under the key;
otherwise "identical" or "conflict" per the entry loop. -/
def classify_duplicate (duplicate_index : DupIndex) (key : String)
    (row : Record) (bank_config : BankConfig) : String :=
  let existing_rows := idxGet duplicate_index key
  if existing_rows.isEmpty then "new"
  else classifyRows bank_config.requiredFields row existing_rows

/-- Python dict equality `existing_row == transformed_row` on the association
list model: each binding of either mapping is the binding the other resolves
for that key. -/
def dictEq (r1 r2 : Record) : Bool :=
  (r1.all fun kv => alistGet? r2 kv.1 == some kv.2) &&
  (r2.all fun kv => alistGet? r1 kv.1 == some kv.2)

/-- The inline duplicate decision of `process_csv.main` (process_csv.py lines
183-218), with its three continuations named after the classification they
realize: discard as "identical" when some stored row equals the transformed
row as a whole dict, divert as "conflict" when the key has stored rows but
none is whole-dict equal, accept as "new" otherwise. -/
def mainDuplicateDecision (duplicate_index : DupIndex) (key : String)
    (row : Record) : String :=
  let existing_rows := idxGet duplicate_index key
  let is_identical := existing_rows.any fun existing_row => dictEq existing_row row
  if is_identical then "identical"
  else if !existing_rows.isEmpty then "conflict"
  else "new"

-- ---------------------------------------------------------------------------
-- Classification lemmas
-- ---------------------------------------------------------------------------

theorem requiredMatch_iff (required : List String) (existing row : Record) :
    requiredMatch required existing row = true ↔
      ∀ f ∈ required, pyStrip (pyGetStr existing f) = pyStrip (pyGetStr row f) := by
  simp [requiredMatch, List.all_eq_true]

theorem classifyRows_eq_identical (required : List String) (row : Record)
    (l : List Record) :
    classifyRows required row l = "identical" ↔
      ∃ e ∈ l, requiredMatch required e row = true := by
  induction l with
  | nil => simp [classifyRows]
  | cons e rest ih =>
      by_cases h : requiredMatch required e row = true
      · simp [classifyRows, h]
      · simp only [classifyRows, if_neg h]
        rw [ih]
        constructor
        · rintro ⟨x, hx, hrm⟩
          exact ⟨x, List.mem_cons_of_mem _ hx, hrm⟩
        · rintro ⟨x, hx, hrm⟩
          rcases List.mem_cons.mp hx with rfl | hx'
          · exact absurd hrm h
          · exact ⟨x, hx', hrm⟩

theorem classifyRows_ne_new (required : List String) (row : Record)
    (l : List Record) : classifyRows required row l ≠ "new" := by
  induction l with
  | nil => simp [classifyRows]
  | cons e rest ih =>
      by_cases h : requiredMatch required e row = true <;>
        simp [classifyRows, h, ih]

theorem classifyRows_eq_any (required : List String) (row : Record)
    (l : List Record) :
    classifyRows required row l =
      (if l.any (fun e => requiredMatch required e row) then "identical"
       else "conflict") := by
  induction l with
  | nil => simp [classifyRows]
  | cons e rest ih =>
      by_cases h : requiredMatch required e row = true <;>
        simp [classifyRows, h, ih]

theorem classifyRows_eq_conflict (required : List String) (row : Record)
    (l : List Record) :
    classifyRows required row l = "conflict" ↔
      ∀ e ∈ l, requiredMatch required e row = false := by
  rw [classifyRows_eq_any]
  by_cases hany : l.any (fun e => requiredMatch required e row) = true
  · simp only [hany, if_true]
    rw [List.any_eq_true] at hany
    obtain ⟨e, he, hrm⟩ := hany
    constructor
    · intro hc; exact absurd hc (by decide)
    · intro hall
      rw [hall e he] at hrm
      exact absurd hrm (by decide)
  · simp only [hany, if_false]
    rw [List.any_eq_true] at hany
    push_neg at hany
    constructor
    · intro _ e he
      have := hany e he
      simpa using this
    · intro _; rfl

/-- C3: trichotomy of `classify_duplicate`. The result is "new" exactly when
no entry is stored under the key; "identical" exactly when some stored entry
agrees with the candidate on every configured required field under trimmed
string equality; "conflict" exactly when entries exist but none fully
matches. -/
theorem classify_duplicate_trichotomy (duplicate_index : DupIndex)
    (key : String) (row : Record) (bank_config : BankConfig) :
    (classify_duplicate duplicate_index key row bank_config = "new" ↔
      idxGet duplicate_index key = []) ∧
    (classify_duplicate duplicate_index key row bank_config = "identical" ↔
      ∃ e ∈ idxGet duplicate_index key,
        ∀ f ∈ bank_config.requiredFields,
          pyStrip (pyGetStr e f) = pyStrip (pyGetStr row f)) ∧
    (classify_duplicate duplicate_index key row bank_config = "conflict" ↔
      idxGet duplicate_index key ≠ [] ∧
      ∀ e ∈ idxGet duplicate_index key,
        ∃ f ∈ bank_config.requiredFields,
          pyStrip (pyGetStr e f) ≠ pyStrip (pyGetStr row f)) := by
  rcases hL : idxGet duplicate_index key with _ | ⟨a, as⟩
  · refine ⟨?_, ?_, ?_⟩ <;> simp [classify_duplicate, hL]
  · have hcl : classify_duplicate duplicate_index key row bank_config =
        classifyRows bank_config.requiredFields row (a :: as) := by
      simp [classify_duplicate, hL]
    refine ⟨?_, ?_, ?_⟩
    · rw [hcl]
      simp [classifyRows_ne_new]
    · rw [hcl, classifyRows_eq_identical]
      simp only [requiredMatch_iff]
    · rw [hcl, classifyRows_eq_conflict]
      constructor
      · intro hall
        refine ⟨by simp, ?_⟩
        intro e he
        have h1 := hall e he
        have h2 : ¬ (requiredMatch bank_config.requiredFields e row = true) := by
          simp [h1]
        rw [requiredMatch_iff] at h2
        push_neg at h2
        exact h2
      · rintro ⟨-, hall⟩
        intro e he
        obtain ⟨f, hf, hne⟩ := hall e he
        have : ¬ (requiredMatch bank_config.requiredFields e row = true) := by
          rw [requiredMatch_iff]
          push_neg
          exact ⟨f, hf, hne⟩
        simpa using this

theorem classify_duplicate_eq_new (idx : DupIndex) (key : String)
    (row : Record) (cfg : BankConfig) :
    classify_duplicate idx key row cfg = "new" ↔ idxGet idx key = [] := by
  unfold classify_duplicate
  rcases hL : idxGet idx key with _ | ⟨a, as⟩
  · simp
  · simp [classifyRows_ne_new]

theorem classify_duplicate_eq_identical (idx : DupIndex) (key : String)
    (row : Record) (cfg : BankConfig) :
    classify_duplicate idx key row cfg = "identical" ↔
      ∃ e ∈ idxGet idx key, requiredMatch cfg.requiredFields e row = true := by
  unfold classify_duplicate
  rcases hL : idxGet idx key with _ | ⟨a, as⟩
  · simp
  · simp [classifyRows_eq_identical]

theorem perm_any_eq {α : Type} {l1 l2 : List α} (h : l1.Perm l2) (p : α → Bool) :
    l1.any p = l2.any p := by
  have hiff : (l1.any p = true) ↔ (l2.any p = true) := by
    simp only [List.any_eq_true]
    constructor
    · rintro ⟨x, hx, hp⟩; exact ⟨x, h.mem_iff.mp hx, hp⟩
    · rintro ⟨x, hx, hp⟩; exact ⟨x, h.mem_iff.mpr hx, hp⟩
  cases h1 : l1.any p <;> cases h2 : l2.any p <;> simp_all

/-- C9: order-insensitivity. When the lists of entries stored under the key in
two indexes are permutations of each other, `classify_duplicate` gives the
same result on both: the decision depends only on whether a stored entry with
a full required-field match exists, not on entry order. -/
theorem classify_duplicate_perm_invariant (idx1 idx2 : DupIndex) (key : String)
    (row : Record) (cfg : BankConfig)
    (h : (idxGet idx1 key).Perm (idxGet idx2 key)) :
    classify_duplicate idx1 key row cfg = classify_duplicate idx2 key row cfg := by
  simp only [classify_duplicate]
  rw [h.isEmpty_eq]
  by_cases h2 : (idxGet idx2 key).isEmpty = true
  · simp [h2]
  · rw [Bool.not_eq_true] at h2
    simp only [h2, Bool.false_eq_true, if_false]
    rw [classifyRows_eq_any, classifyRows_eq_any, perm_any_eq h]

theorem classify_duplicate_perm_invariant_witness :
    (idxGet [("K", [[("amount", "5")], [("amount", "7")]])] "K").Perm
      (idxGet [("K", [[("amount", "7")], [("amount", "5")]])] "K") ∧
    classify_duplicate [("K", [[("amount", "5")], [("amount", "7")]])] "K"
        [("amount", "7")] ⟨["amount"]⟩ =
      classify_duplicate [("K", [[("amount", "7")], [("amount", "5")]])] "K"
        [("amount", "7")] ⟨["amount"]⟩ :=
  ⟨by decide, classify_duplicate_perm_invariant _ _ _ _ _ (by decide)⟩

/-- C10: a configured required field absent from a mapping is read as the
empty string (`row.get(field, "")`), so a candidate lacking a required field
is classified "identical" to a stored entry under the same key whose value
for that field trims to empty, provided every other required field matches
after trimming. -/
theorem classify_duplicate_absent_field_empty (idx : DupIndex) (key : String)
    (row : Record) (cfg : BankConfig) (e : Record)
    (he : e ∈ idxGet idx key)
    (habsent : ∀ f ∈ cfg.requiredFields,
      alistGet? row f = none → pyStrip (pyGetStr e f) = "")
    (hrest : ∀ f ∈ cfg.requiredFields,
      alistGet? row f ≠ none → pyStrip (pyGetStr e f) = pyStrip (pyGetStr row f)) :
    (∀ (r : Record) (f : String), alistGet? r f = none → pyGetStr r f = "") ∧
    classify_duplicate idx key row cfg = "identical" := by
  constructor
  · intro r f hf
    simp [pyGetStr, hf]
  · rw [classify_duplicate_eq_identical]
    refine ⟨e, he, ?_⟩
    rw [requiredMatch_iff]
    intro f hf
    by_cases hx : alistGet? row f = none
    · rw [habsent f hf hx]
      have hrow : pyGetStr row f = "" := by simp [pyGetStr, hx]
      rw [hrow]
      rfl
    · exact hrest f hf hx

theorem classify_duplicate_absent_field_empty_witness :
    let idx : DupIndex := [("K", [[("amount", "5"), ("note", " ")]])]
    let row : Record := [("amount", "5")]
    let cfg : BankConfig := ⟨["amount", "note"]⟩
    [("amount", "5"), ("note", " ")] ∈ idxGet idx "K" ∧
    classify_duplicate idx "K" row cfg = "identical" :=
  ⟨by decide,
   (classify_duplicate_absent_field_empty
      [("K", [[("amount", "5"), ("note", " ")]])] "K" [("amount", "5")]
      ⟨["amount", "note"]⟩ [("amount", "5"), ("note", " ")]
      (by decide) (by decide) (by decide)).2⟩

-- ---------------------------------------------------------------------------
-- Whole-dict equality vs field-scoped equality (process_csv.main inline check)
-- ---------------------------------------------------------------------------

theorem alistGet?_mem {l : List (String × String)} {f v : String}
    (h : alistGet? l f = some v) : (f, v) ∈ l := by
  induction l with
  | nil => simp [alistGet?] at h
  | cons kv rest ih =>
      rcases kv with ⟨k, w⟩
      simp only [alistGet?] at h
      split at h
      · next hk =>
          injection h with hw
          subst hk
          subst hw
          exact List.mem_cons_self _ _
      · next hk =>
          exact List.mem_cons_of_mem _ (ih h)

theorem dictEq_lookup_eq {r1 r2 : Record} (h : dictEq r1 r2 = true)
    (f : String) : alistGet? r1 f = alistGet? r2 f := by
  unfold dictEq at h
  rw [Bool.and_eq_true] at h
  obtain ⟨h1, h2⟩ := h
  rw [List.all_eq_true] at h1 h2
  cases hv : alistGet? r1 f with
  | some v =>
      have hm := alistGet?_mem hv
      have hb := h1 _ hm
      simp only [beq_iff_eq] at hb
      exact hb.symm ▸ rfl
  | none =>
      cases hw : alistGet? r2 f with
      | none => rfl
      | some w =>
          have hm := alistGet?_mem hw
          have hb := h2 _ hm
          simp only [beq_iff_eq] at hb
          rw [hv] at hb
          exact absurd hb (by simp)

/-- C6 counterexample: the two duplicate-decision implementations disagree.
The index stores under key "K" a row that matches the candidate on the only
configured required field "amount" but differs in the non-required column
"note": `classify_duplicate` discards the candidate as "identical" while the
inline whole-dict comparison of `process_csv.main` diverts it as a
duplicate conflict. -/
theorem mainDecision_classify_disagree :
    ¬ (mainDuplicateDecision
        [("K", [[("duplicate_key", "K"), ("amount", "5"), ("note", "a")]])] "K"
        [("duplicate_key", "K"), ("amount", "5"), ("note", "b")] =
      classify_duplicate
        [("K", [[("duplicate_key", "K"), ("amount", "5"), ("note", "a")]])] "K"
        [("duplicate_key", "K"), ("amount", "5"), ("note", "b")]
        ⟨["amount"]⟩) := by
  decide

/-- C6 amended: the inline decision of `process_csv.main` agrees with
`classify_duplicate` on "new" (both accept exactly when no entry is stored
under the key), and every row the inline decision discards as identical is
also classified "identical" by `classify_duplicate` (whole-dict equality
implies the field-scoped trimmed match); the converse fails because the
inline comparison is whole-record, not field-scoped. -/
theorem mainDecision_refines_classify (idx : DupIndex) (key : String)
    (row : Record) (cfg : BankConfig) :
    (mainDuplicateDecision idx key row = "new" ↔
      classify_duplicate idx key row cfg = "new") ∧
    (mainDuplicateDecision idx key row = "identical" →
      classify_duplicate idx key row cfg = "identical") := by
  constructor
  · rw [classify_duplicate_eq_new]
    unfold mainDuplicateDecision
    rcases hL : idxGet idx key with _ | ⟨a, as⟩
    · simp
    · by_cases hany : (a :: as).any (fun e => dictEq e row) = true
      · simp [hany]
      · simp [hany]
  · intro hmd
    have hany : (idxGet idx key).any (fun e => dictEq e row) = true := by
      by_contra hn
      unfold mainDuplicateDecision at hmd
      simp only [hn, Bool.false_eq_true, if_false] at hmd
      by_cases hemp : (idxGet idx key).isEmpty = true
      · rw [hemp] at hmd
        exact absurd hmd (by decide)
      · rw [Bool.not_eq_true] at hemp
        rw [hemp] at hmd
        exact absurd hmd (by decide)
    obtain ⟨e, he, hde⟩ := List.any_eq_true.mp hany
    rw [classify_duplicate_eq_identical]
    refine ⟨e, he, ?_⟩
    rw [requiredMatch_iff]
    intro f hf
    have hl := dictEq_lookup_eq hde f
    simp [pyGetStr, hl]

-- ---------------------------------------------------------------------------
-- Strings and paths
-- ---------------------------------------------------------------------------

/-- List-level prefix test, evaluated structurally. -/
def isPrefixList : List Char → List Char → Bool
  | [], _ => true
  | _ :: _, [] => false
  | a :: as, b :: bs => a == b && isPrefixList as bs

/-- Model of Python `s.startswith(pre)`. -/
def strHasPrefix (pre s : String) : Bool :=
  isPrefixList pre.data s.data

/-- Model of Python `s.endswith(suf)`. -/
def strEndsWith (suf s : String) : Bool :=
  isPrefixList suf.data.reverse s.data.reverse

/-- The remainder of `s` once its first `pre.length` characters are gone. -/
def dropPrefixStr (pre s : String) : String :=
  String.mk (s.data.drop pre.data.length)

/-- Model of the Python slice `s[:-len(suf)]`. -/
def dropSuffixStr (suf s : String) : String :=
  String.mk (s.data.take (s.data.length - suf.data.length))

/-- Remove every non-overlapping occurrence of `old` from the character list,
scanning left to right: the model of Python `s.replace(old, "")` for a
non-empty pattern. Structural recursion on a fuel counter so that the
function evaluates inside the kernel; each step consumes at least one
character, so fuel equal to the list length suffices. -/
def removeAllAux (old : List Char) : Nat → List Char → List Char
  | _, [] => []
  | 0, l => l
  | fuel + 1, c :: rest =>
      if old ≠ [] ∧ isPrefixList old (c :: rest) = true then
        removeAllAux old fuel (rest.drop (old.length - 1))
      else
        c :: removeAllAux old fuel rest

/-- Model of Python `s.replace(pat, "")`. -/
def removeAll (s pat : String) : String :=
  String.mk (removeAllAux pat.data s.data.length s.data)

/-- Model of Python `os.path.basename`: the part after the final slash. -/
def basenameOf (p : String) : String :=
  String.mk ((p.data.reverse.takeWhile (fun c => c != '/')).reverse)

/-- Model of `os.path.splitext(p)[0]`: everything before the final dot of the
basename, provided some character of the basename other than a dot precedes
that dot (so dotfiles keep their name); otherwise `p` itself. -/
def splitextFst (p : String) : String :=
  let cs := p.data
  let base := (cs.reverse.takeWhile (fun c => c != '/')).reverse
  let afterDot := base.reverse.takeWhile (fun c => c != '.')
  if afterDot.length = base.length then p
  else if (base.take (base.length - afterDot.length - 1)).any (fun c => c != '.') then
    String.mk (cs.take (cs.length - afterDot.length - 1))
  else p

/-- Model of `os.path.join(a, b)` for POSIX paths: `b` when absolute,
otherwise `a` and `b` glued with exactly one separator. -/
def joinPath (a b : String) : String :=
  if strHasPrefix "/" b then b
  else if a = "" then b
  else if strEndsWith "/" a then a ++ b
  else a ++ "/" ++ b

theorem isPrefixList_append (xs ys : List Char) :
    isPrefixList xs (xs ++ ys) = true := by
  induction xs with
  | nil => rfl
  | cons a as ih => simp [isPrefixList, ih]

theorem strHasPrefix_append (a b : String) :
    strHasPrefix a (a ++ b) = true := by
  simp only [strHasPrefix, String.data_append]
  exact isPrefixList_append _ _

theorem slash_prefix_append (a b : String)
    (ha : strHasPrefix "/" a = false) (hb : strHasPrefix "/" b = false) :
    strHasPrefix "/" (a ++ b) = false := by
  simp only [strHasPrefix, String.data_append] at *
  cases hd : a.data with
  | nil => simpa using hb
  | cons c rest =>
      rw [hd] at ha
      simpa [isPrefixList] using ha

theorem slash_prefix_append_left (a b : String)
    (ha : strHasPrefix "/" a = false) (hne : a ≠ "") :
    strHasPrefix "/" (a ++ b) = false := by
  simp only [strHasPrefix, String.data_append] at *
  cases hd : a.data with
  | nil =>
      exfalso
      apply hne
      cases a
      simp_all
  | cons c rest =>
      rw [hd] at ha
      simpa [isPrefixList] using ha

theorem append_dash_ne_empty (ts : String) : ts ++ "-" ≠ "" := by
  intro h
  have hd := congrArg String.data h
  rw [String.data_append] at hd
  simp at hd

theorem joinPath_eq_of (bd n : String)
    (h1 : strHasPrefix "/" n = false) (h2 : bd ≠ "")
    (h3 : strEndsWith "/" bd = false) :
    joinPath bd n = bd ++ "/" ++ n := by
  unfold joinPath
  rw [if_neg (by simp [h1]), if_neg h2, if_neg (by simp [h3])]

-- ---------------------------------------------------------------------------
-- The filesystem model
-- ---------------------------------------------------------------------------

/-- The filesystem: a flat association of absolute path strings to file
contents. A path absent from the association is a file that does not exist. -/
abbrev FS := List (String × String)

/-- Content of the file at `p`, or `none` when no such file exists. -/
def fsGet (fs : FS) (p : String) : Option String :=
  alistGet? fs p

/-- Delete the file at `p` (a no-op when absent). -/
def fsErase (fs : FS) (p : String) : FS :=
  fs.filter fun kv => kv.1 != p

/-- Create or overwrite the file at `p` with content `c`. -/
def fsSet (fs : FS) (p c : String) : FS :=
  (p, c) :: fsErase fs p

theorem fsGet_fsErase_self (fs : FS) (p : String) :
    fsGet (fsErase fs p) p = none := by
  induction fs with
  | nil => simp [fsErase, fsGet, alistGet?]
  | cons kv rest ih =>
      rcases kv with ⟨k, v⟩
      by_cases hk : k = p
      · have hbne : (k != p) = false := by simp [hk]
        simp only [fsErase, List.filter_cons, hbne, Bool.false_eq_true,
          if_false] at *
        exact ih
      · have hbne : (k != p) = true := by simp [hk]
        simp only [fsErase, List.filter_cons, hbne, if_true] at *
        simp only [fsGet, alistGet?] at *
        rw [if_neg hk]
        exact ih

theorem fsGet_fsErase_ne (fs : FS) (p q : String) (h : q ≠ p) :
    fsGet (fsErase fs p) q = fsGet fs q := by
  induction fs with
  | nil => simp [fsErase, fsGet, alistGet?]
  | cons kv rest ih =>
      rcases kv with ⟨k, v⟩
      by_cases hk : k = p
      · have hbne : (k != p) = false := by simp [hk]
        simp only [fsErase, List.filter_cons, hbne, Bool.false_eq_true,
          if_false] at *
        have hkq : ¬ (k = q) := by
          intro hkq
          exact h (hkq ▸ hk.symm ▸ rfl)
        simp only [fsGet, alistGet?]
        rw [if_neg hkq]
        exact ih
      · have hbne : (k != p) = true := by simp [hk]
        simp only [fsErase, List.filter_cons, hbne, if_true] at *
        simp only [fsGet, alistGet?] at *
        by_cases hkq : k = q
        · rw [if_pos hkq, if_pos hkq]
        · rw [if_neg hkq, if_neg hkq]
          exact ih

theorem fsGet_fsSet_same (fs : FS) (p c : String) :
    fsGet (fsSet fs p c) p = some c := by
  simp [fsGet, fsSet, alistGet?]

theorem fsGet_fsSet_ne (fs : FS) (p c q : String) (h : q ≠ p) :
    fsGet (fsSet fs p c) q = fsGet fs q := by
  simp only [fsSet, fsGet, alistGet?]
  rw [if_neg (fun hh => h hh.symm)]
  exact fsGet_fsErase_ne fs p q h

-- ---------------------------------------------------------------------------
-- Duplicate-index file operations (duplicate_index.py)
-- ---------------------------------------------------------------------------

/-- One serialized csv.DictWriter header line: the field names joined by the
semicolon delimiter, terminated by CRLF. -/
def renderHeader (fieldnames : List String) : String :=
  String.intercalate ";" fieldnames ++ "\r\n"

/-- One serialized csv.DictWriter row: the row's value for each field name
(absent fields as the empty restval), joined by the semicolon delimiter and
terminated by CRLF. Quoting of delimiter or newline characters inside values
is not modelled; none of the theorems below depends on it. -/
def renderRow (fieldnames : List String) (row : Record) : String :=
  String.intercalate ";" (fieldnames.map (pyGetStr row)) ++ "\r\n"

def renderRows (fieldnames : List String) (rows : List Record) : String :=
  String.join (rows.map (renderRow fieldnames))

/-- `append_to_duplicate_index` (duplicate_index.py lines 56-75): append the
rows to the table at the path, in append mode, writing a header first exactly
when the file did not exist; a no-op for an empty row list. The fieldnames
are the keys of the first row. -/
def append_to_duplicate_index (fs : FS) (duplicate_index_path : String)
    (duplicate_index_rows : List Record) : FS :=
  match duplicate_index_rows with
  | [] => fs
  | r :: _ =>
      let fieldnames := r.map fun kv => kv.1
      let file_exists := (fsGet fs duplicate_index_path).isSome
      let base := (fsGet fs duplicate_index_path).getD ""
      let header := if file_exists then "" else renderHeader fieldnames
      fsSet fs duplicate_index_path
        (base ++ header ++ renderRows fieldnames duplicate_index_rows)

/-- The run-scoped snapshot path computed at duplicate_index.py lines 96-101:
`backup_dir` joined with
`run_timestamp-stem(csv_filename)-bank_name-duplicate-index.csv`, where
`bank_name` is the basename of the index path without extension and with
every occurrence of "-duplicate-index" removed. -/
def updatedIndexPath (duplicate_index_path backup_dir run_timestamp
    csv_filename : String) : String :=
  let bank_name :=
    removeAll (splitextFst (basenameOf duplicate_index_path)) "-duplicate-index"
  joinPath backup_dir
    (run_timestamp ++ "-" ++ splitextFst csv_filename ++ "-" ++ bank_name ++
      "-duplicate-index.csv")

/-- `create_updated_duplicate_index` (duplicate_index.py lines 81-110): copy
the current on-disk index (when present) to the run-scoped snapshot path,
then append the new rows there. The snapshot path itself is the separate
pure computation `updatedIndexPath`. -/
def create_updated_duplicate_index (fs : FS) (duplicate_index_path backup_dir
    run_timestamp csv_filename : String)
    (duplicate_index_rows : List Record) : FS :=
  let updated :=
    updatedIndexPath duplicate_index_path backup_dir run_timestamp csv_filename
  let fs1 := match fsGet fs duplicate_index_path with
    | some c => fsSet fs updated c
    | none => fs
  append_to_duplicate_index fs1 updated duplicate_index_rows

theorem append_fsGet_ne (fs : FS) (path : String) (rows : List Record)
    (p : String) (hp : p ≠ path) :
    fsGet (append_to_duplicate_index fs path rows) p = fsGet fs p := by
  cases rows with
  | nil => rfl
  | cons r rest =>
      simp only [append_to_duplicate_index]
      exact fsGet_fsSet_ne _ _ _ _ hp

theorem create_updated_fsGet_ne (fs : FS) (ip bd ts fname : String)
    (rows : List Record) (p : String)
    (hp : p ≠ updatedIndexPath ip bd ts fname) :
    fsGet (create_updated_duplicate_index fs ip bd ts fname rows) p =
      fsGet fs p := by
  simp only [create_updated_duplicate_index]
  cases hc : fsGet fs ip with
  | some c =>
      rw [append_fsGet_ne _ _ _ _ hp]
      exact fsGet_fsSet_ne _ _ _ _ hp
  | none =>
      rw [append_fsGet_ne _ _ _ _ hp]

theorem updatedIndexPath_has_backup_prefix (ip bd ts fname : String)
    (hts : strHasPrefix "/" ts = false) (hbd : bd ≠ "")
    (hbds : strEndsWith "/" bd = false) :
    strHasPrefix (bd ++ "/") (updatedIndexPath ip bd ts fname) = true := by
  unfold updatedIndexPath
  have h1 : strHasPrefix "/" (ts ++ "-") = false :=
    slash_prefix_append _ _ hts (by decide)
  have h2 : ∀ b : String, strHasPrefix "/"
      ((ts ++ "-") ++ b) = false := fun b =>
    slash_prefix_append_left _ _ h1 (append_dash_ne_empty ts)
  have hname : strHasPrefix "/" (ts ++ "-" ++ splitextFst fname ++ "-" ++
      removeAll (splitextFst (basenameOf ip)) "-duplicate-index" ++
      "-duplicate-index.csv") = false := by
    have := h2 (splitextFst fname ++ "-" ++
      removeAll (splitextFst (basenameOf ip)) "-duplicate-index" ++
      "-duplicate-index.csv")
    calc strHasPrefix "/" (ts ++ "-" ++ splitextFst fname ++ "-" ++
        removeAll (splitextFst (basenameOf ip)) "-duplicate-index" ++
        "-duplicate-index.csv")
        = strHasPrefix "/" ((ts ++ "-") ++ (splitextFst fname ++ "-" ++
            removeAll (splitextFst (basenameOf ip)) "-duplicate-index" ++
            "-duplicate-index.csv")) := by
          congr 1
          simp [String.append_assoc]
      _ = false := this
  rw [joinPath_eq_of _ _ hname hbd hbds]
  exact strHasPrefix_append _ _

/-- C8: `create_updated_duplicate_index` stages without touching the live
index. Every path other than the computed run-scoped snapshot path keeps its
content, and in particular the file at `duplicate_index_path` is unchanged in
existence and byte content, under the layout the system constructs: the run
timestamp is a relative name, the backup directory is a nonempty path without
a trailing separator, and the live index does not live inside the backup
directory. -/
theorem create_updated_duplicate_index_frame (fs : FS)
    (ip bd ts fname : String) (rows : List Record)
    (hts : strHasPrefix "/" ts = false) (hbd : bd ≠ "")
    (hbds : strEndsWith "/" bd = false)
    (hip : strHasPrefix (bd ++ "/") ip = false) :
    (∀ p, p ≠ updatedIndexPath ip bd ts fname →
      fsGet (create_updated_duplicate_index fs ip bd ts fname rows) p =
        fsGet fs p) ∧
    fsGet (create_updated_duplicate_index fs ip bd ts fname rows) ip =
      fsGet fs ip := by
  have hne : ip ≠ updatedIndexPath ip bd ts fname := by
    intro h
    have hpre := updatedIndexPath_has_backup_prefix ip bd ts fname hts hbd hbds
    rw [← h] at hpre
    rw [hip] at hpre
    exact absurd hpre (by decide)
  exact ⟨fun p hp => create_updated_fsGet_ne fs ip bd ts fname rows p hp,
    create_updated_fsGet_ne fs ip bd ts fname rows ip hne⟩

theorem create_updated_duplicate_index_frame_witness :
    (∀ p, p ≠ updatedIndexPath "di/rabo-duplicate-index.csv" "di/backups"
        "20200101-120000" "export.csv" →
      fsGet (create_updated_duplicate_index
        [("di/rabo-duplicate-index.csv", "duplicate_key\r\nK1\r\n")]
        "di/rabo-duplicate-index.csv" "di/backups" "20200101-120000"
        "export.csv" [[("duplicate_key", "K2")]]) p =
      fsGet [("di/rabo-duplicate-index.csv", "duplicate_key\r\nK1\r\n")] p) ∧
    fsGet (create_updated_duplicate_index
        [("di/rabo-duplicate-index.csv", "duplicate_key\r\nK1\r\n")]
        "di/rabo-duplicate-index.csv" "di/backups" "20200101-120000"
        "export.csv" [[("duplicate_key", "K2")]])
      "di/rabo-duplicate-index.csv" =
    fsGet [("di/rabo-duplicate-index.csv", "duplicate_key\r\nK1\r\n")]
      "di/rabo-duplicate-index.csv" :=
  create_updated_duplicate_index_frame _ _ _ _ _ _
    (by decide) (by decide) (by decide) (by decide)

-- ---------------------------------------------------------------------------
-- Backup rotation (duplicate_index.py lines 116-167)
-- ---------------------------------------------------------------------------

def MAX_BACKUPS : Nat := 50

def MAX_BACKUP_AGE_DAYS : Nat := 365

/-- Numeric value of a digit-character list. -/
def digitsToNat (cs : List Char) : Nat :=
  cs.foldl (fun n c => n * 10 + (c.toNat - '0'.toNat)) 0

def isLeapYear (y : Nat) : Bool :=
  (y % 4 == 0 && y % 100 != 0) || y % 400 == 0

def daysInMonth (y m : Nat) : Nat :=
  if m = 2 then (if isLeapYear y then 29 else 28)
  else if m = 4 ∨ m = 6 ∨ m = 9 ∨ m = 11 then 30
  else 31

/-- Split a character list at every dash, the model of `s.split("-")` used to
read the two fields of the timestamp format. -/
def splitOnDash : List Char → List (List Char)
  | [] => [[]]
  | c :: rest =>
      if c = '-' then [] :: splitOnDash rest
      else
        match splitOnDash rest with
        | [] => [[c]]
        | g :: gs => (c :: g) :: gs

/-- Model of `datetime.strptime(s, "%Y%m%d-%H%M%S")` on the canonical
fixed-width form, yielding a lexicographically encoded timestamp. Like
strptime with this format string giving a valid datetime, it accepts only
digit fields around exactly one dash and enforces calendar ranges; every
theorem below relies only on its rejection of strings that carry more than
one dash. -/
def parseRunTs (s : String) : Option Nat :=
  match splitOnDash s.data with
  | [d, t] =>
      if d.length = 8 ∧ t.length = 6 ∧
          d.all Char.isDigit ∧ t.all Char.isDigit then
        let y := digitsToNat (d.take 4)
        let mo := digitsToNat ((d.drop 4).take 2)
        let dd := digitsToNat (d.drop 6)
        let h := digitsToNat (t.take 2)
        let mi := digitsToNat ((t.drop 2).take 2)
        let sec := digitsToNat (t.drop 4)
        if 1 ≤ mo ∧ mo ≤ 12 ∧ 1 ≤ dd ∧ dd ≤ daysInMonth y mo ∧
            h ≤ 23 ∧ mi ≤ 59 ∧ sec ≤ 59 then
          some (((((y * 100 + mo) * 100 + dd) * 100 + h) * 100 + mi) * 100 + sec)
        else none
      else none
  | _ => none

/-- Model of `os.listdir(dir)` over the flat filesystem: the name of every
file directly inside `dir`. -/
def listBackupNames (fs : FS) (dir : String) : List String :=
  fs.filterMap fun kv =>
    if strHasPrefix (dir ++ "/") kv.1 = true then
      let name := dropPrefixStr (dir ++ "/") kv.1
      if name ≠ "" ∧ name.data.contains '/' = false then some name else none
    else none

/-- Insert `x` after every already-placed element whose key is not greater:
one step of a stable insertion sort. -/
def insertByTs (x : Nat × String) : List (Nat × String) → List (Nat × String)
  | [] => [x]
  | y :: ys => if y.1 ≤ x.1 then y :: insertByTs x ys else x :: y :: ys

/-- Stable sort by timestamp, the model of Python
`backup_files.sort(key=lambda x: x[0])`: elements with equal keys keep their
original relative order. -/
def pySortByTs (l : List (Nat × String)) : List (Nat × String) :=
  l.foldl (fun acc x => insertByTs x acc) []

/-- `rotate_duplicate_backups` (duplicate_index.py lines 116-167): collect the
directory entries ending in "-duplicate-index.csv" whose remaining name
parses as a run timestamp, sort them oldest to newest, delete those older
than the cutoff (`datetime.now() - timedelta(days=MAX_BACKUP_AGE_DAYS)`,
supplied here as the precomputed `cutoff`), then delete the oldest kept
entries until at most `MAX_BACKUPS` remain. Deletions succeed in the model;
in the source a failed deletion is logged and skipped, deleting a subset of
the same files. -/
def rotate_duplicate_backups (fs : FS) (backup_dir : String)
    (cutoff : Nat) : FS :=
  let backup_files := (listBackupNames fs backup_dir).filterMap fun filename =>
    if strEndsWith "-duplicate-index.csv" filename = true then
      match parseRunTs (dropSuffixStr "-duplicate-index.csv" filename) with
      | some timestamp => some (timestamp, filename)
      | none => none
    else none
  let sorted := pySortByTs backup_files
  let old := sorted.filter fun x => decide (x.1 < cutoff)
  let kept := sorted.filter fun x => decide (¬ (x.1 < cutoff))
  let excess := if kept.length > MAX_BACKUPS then kept.length - MAX_BACKUPS else 0
  (old ++ kept.take excess).foldl
    (fun f x => fsErase f (joinPath backup_dir x.2)) fs

/-- C7: the rotation never matches the snapshots the runs create. A snapshot
staged by `create_updated_duplicate_index` is named
`run_timestamp-stem-bank_name-duplicate-index.csv`, so the name part that
rotation parses as a timestamp still contains the stem and bank segments and
`strptime` rejects it; the file is kept regardless of age or count. The
concrete backup directory below holds one such snapshot from 2000-01-01,
far older than a 2025 cutoff, and rotation deletes nothing, while a file
named under the bare `run_timestamp-duplicate-index.csv` convention of
`duplicate_backup.backup_duplicate_index` from the same moment is deleted. -/
theorem rotate_skips_run_snapshots :
    (basenameOf (updatedIndexPath "di/rabo-duplicate-index.csv" "backups"
        "20000101-120000" "export.csv") =
      "20000101-120000-export-rabo-duplicate-index.csv") ∧
    parseRunTs "20000101-120000-export-rabo" = none ∧
    parseRunTs "20000101-120000" = some 20000101120000 ∧
    20000101120000 < 20250101000000 ∧
    rotate_duplicate_backups
      [("backups/20000101-120000-export-rabo-duplicate-index.csv", "h\r\nv\r\n")]
      "backups" 20250101000000 =
      [("backups/20000101-120000-export-rabo-duplicate-index.csv", "h\r\nv\r\n")] ∧
    rotate_duplicate_backups
      [("backups/20000101-120000-duplicate-index.csv", "h\r\nv\r\n")]
      "backups" 20250101000000 = [] := by
  refine ⟨by decide, by decide, by decide, by decide, by decide, by decide⟩

-- ---------------------------------------------------------------------------
-- The finalization coordinator (completion.py)
-- ---------------------------------------------------------------------------

/-- Outcome directive for one fallible file operation, chosen by the
environment: the operation succeeds; it raises before touching its
destination; or, for copy-type operations (which CPython implements by
opening the destination for truncating write and copying chunks), it raises
after leaving the destination holding a partial content `w`. -/
inductive OpResult where
  | ok : OpResult
  | err : OpResult
  | errPartial : String → OpResult
deriving DecidableEq

/-- The slice of the run context dict that `finalize` reads: file names,
run identifier, and the directory table. Logging callbacks and the
open-writers list carry no filesystem state and are represented by the
event trace. -/
structure Ctx where
  csvFilePath : String
  csvFilename : String
  runTimestamp : String
  tempOutputPath : String
  processedDir : String
  failedDir : String
  normalizedDir : String
  tempDir : String
  duplicateIndexPath : String
  backupDir : String
deriving DecidableEq

/-- The environment directives for every fallible operation `finalize` can
attempt, one per call site in completion.py. -/
structure FinSchedule where
  prep : OpResult
  moveCsv : OpResult
  moveCsvFallback : OpResult
  copyPrev : OpResult
  commit : OpResult
  moveFailed3 : OpResult
  moveNorm : OpResult
  restore : OpResult
  moveFailed4 : OpResult
deriving DecidableEq

/-- Observable run events: a log line, a notification, a process exit. -/
inductive Event where
  | logged : String → Event
  | emailed : String → String → Event
  | exited : Int → Event
deriving DecidableEq

/-- The notification body built by `log_email_exit` (completion.py lines
42-46). -/
def emailBody (ctx : Ctx) (message : String) : String :=
  "File: " ++ ctx.csvFilename ++ "\nTimestamp: " ++ ctx.runTimestamp ++ "\n" ++
    message

/-- `log_email_exit` (completion.py lines 31-55): write the final log entry,
send the notification, exit. Per the spec, the log helper and the mail
collaborator absorb their own delivery errors, so the three events always
happen; `sys.exit` ends the run. -/
def log_email_exit (ctx : Ctx) (exit_code : Int) (message : String) :
    List Event :=
  [Event.logged message, Event.emailed message (emailBody ctx message),
   Event.exited exit_code]

/-- `shutil.move`: on success the source vanishes and the destination holds
its content; a missing source or any environment failure raises with the
filesystem unchanged (the rename is atomic). -/
def moveStep (d : OpResult) (fs : FS) (src dst : String) : Except FS FS :=
  match d with
  | OpResult.ok =>
      match fsGet fs src with
      | some c => Except.ok (fsSet (fsErase fs src) dst c)
      | none => Except.error fs
  | OpResult.err => Except.error fs
  | OpResult.errPartial _ => Except.error fs

/-- `shutil.copyfile` / `shutil.copy2`: on success the destination holds the
source content; a failure before the destination is opened leaves the
filesystem unchanged, and a failure mid-copy leaves the destination holding
the partial content `w` (copyfile truncates the destination first). A
missing source raises before the destination is touched. -/
def copyStep (d : OpResult) (fs : FS) (src dst : String) : Except FS FS :=
  match d with
  | OpResult.ok =>
      match fsGet fs src with
      | some c => Except.ok (fsSet fs dst c)
      | none => Except.error fs
  | OpResult.err => Except.error fs
  | OpResult.errPartial w => Except.error (fsSet fs dst w)

/-- `open(path, "w").close()`: create an empty file, with the same failure
modes as a copy. -/
def emptyWriteStep (d : OpResult) (fs : FS) (dst : String) : Except FS FS :=
  match d with
  | OpResult.ok => Except.ok (fsSet fs dst "")
  | OpResult.err => Except.error fs
  | OpResult.errPartial w => Except.error (fsSet fs dst w)

/-- The state after a best-effort operation whose failure is swallowed
(`try ... except Exception: pass`). -/
def exceptFS : Except FS FS → FS
  | Except.ok f => f
  | Except.error f => f

/-- `shutil.rmtree(dir, ignore_errors=True)`: every file under the directory
is gone. -/
def rmtreeFS (fs : FS) (dir : String) : FS :=
  fs.filter fun kv => !(strHasPrefix (dir ++ "/") kv.1)

def finalCsvPathOf (ctx : Ctx) (move_suffix : String) : String :=
  joinPath ctx.processedDir
    (ctx.runTimestamp ++ "-" ++ ctx.csvFilename ++ move_suffix)

def failedPathOf (ctx : Ctx) : String :=
  joinPath ctx.failedDir
    (ctx.runTimestamp ++ "-" ++ ctx.csvFilename ++ "-failed.csv")

def prevIndexPathOf (ctx : Ctx) : String :=
  joinPath ctx.tempDir "previous-duplicate-index.csv"

def normalizedPathOf (ctx : Ctx) (normalized_suffix : String) : String :=
  joinPath ctx.normalizedDir
    (ctx.runTimestamp ++ "-" ++ ctx.csvFilename ++ normalized_suffix)

def prepErrMsg : String := "DUPLICATE INDEX PREP ERROR"

def csvMoveErrMsg : String := "ORIGINAL CSV MOVE ERROR"

def commitErrMsg : String := "DUPLICATE INDEX COMMIT ERROR"

def normMoveErrMsg : String := "NORMALIZED OUTPUT MOVE ERROR"

/-- `finalize` (completion.py lines 75-249), over the filesystem model and a
failure schedule. Python truthiness of `transformed_rows` (None or empty
list are falsy) is `rows.isEmpty` for `rows := transformed_rows.getD []`;
`previous_duplicate_index` is non-None exactly when step 3 ran its body,
that is when `rows` is nonempty and step 3 was reached. The exception text
interpolated into the terminal messages is elided; `cutoff` stands for the
rotation's `datetime.now() - timedelta(days=MAX_BACKUP_AGE_DAYS)`. Step 6
(closing writer handles) has no filesystem effect in the model. Each failing
step ends the run through `log_email_exit` with its distinct exit code. -/
def finalize (ctx : Ctx) (sched : FinSchedule) (cutoff : Nat)
    (exit_code : Int) (move_suffix : String)
    (normalized_suffix : Option String)
    (transformed_rows : Option (List Record)) (message : String)
    (fs : FS) : FS × List Event :=
  let rows := transformed_rows.getD []
  let updPath := updatedIndexPath ctx.duplicateIndexPath ctx.backupDir
    ctx.runTimestamp ctx.csvFilename
  let step1 : Except FS FS :=
    if rows.isEmpty then Except.ok fs
    else
      match sched.prep with
      | OpResult.ok => Except.ok (create_updated_duplicate_index fs
          ctx.duplicateIndexPath ctx.backupDir ctx.runTimestamp
          ctx.csvFilename rows)
      | OpResult.err => Except.error fs
      | OpResult.errPartial w => Except.error (fsSet fs updPath w)
  match step1 with
  | Except.error fs1 => (fs1, log_email_exit ctx 97 prepErrMsg)
  | Except.ok fs1 =>
    match moveStep sched.moveCsv fs1 ctx.csvFilePath
        (finalCsvPathOf ctx move_suffix) with
    | Except.error fs2e =>
        (exceptFS (moveStep sched.moveCsvFallback fs2e ctx.csvFilePath
            (failedPathOf ctx)),
         log_email_exit ctx 94 csvMoveErrMsg)
    | Except.ok fs2 =>
      let step3 : Except FS FS :=
        if rows.isEmpty then Except.ok fs2
        else
          match (if (fsGet fs2 ctx.duplicateIndexPath).isSome then
                copyStep sched.copyPrev fs2 ctx.duplicateIndexPath
                  (prevIndexPathOf ctx)
              else
                emptyWriteStep sched.copyPrev fs2 (prevIndexPathOf ctx)) with
          | Except.error f => Except.error f
          | Except.ok f3 =>
              copyStep sched.commit f3 updPath ctx.duplicateIndexPath
      match step3 with
      | Except.error fs3e =>
          (exceptFS (moveStep sched.moveFailed3 fs3e
              (finalCsvPathOf ctx move_suffix) (failedPathOf ctx)),
           log_email_exit ctx 93 commitErrMsg)
      | Except.ok fs3 =>
        let step4 : Except FS FS :=
          match normalized_suffix with
          | none => Except.ok fs3
          | some nsfx =>
              if ctx.tempOutputPath = "" then Except.ok fs3
              else moveStep sched.moveNorm fs3 ctx.tempOutputPath
                (normalizedPathOf ctx nsfx)
        match step4 with
        | Except.error fs4e =>
            let fs4r := if rows.isEmpty then fs4e
              else exceptFS (copyStep sched.restore fs4e
                (prevIndexPathOf ctx) ctx.duplicateIndexPath)
            (exceptFS (moveStep sched.moveFailed4 fs4r
                (finalCsvPathOf ctx move_suffix) (failedPathOf ctx)),
             log_email_exit ctx 92 normMoveErrMsg)
        | Except.ok fs4 =>
            let fs5 := rotate_duplicate_backups fs4 ctx.backupDir cutoff
            let fs7 := rmtreeFS fs5 ctx.tempDir
            (fs7, log_email_exit ctx exit_code message)

/-- C4: exactly-once termination. Whatever the context, failure schedule,
outcome arguments and starting filesystem, the event trace of `finalize` is
exactly one terminal `log_email_exit` block: one final log line, one
notification, one process exit, and nothing else — every success or failure
path ends there and nowhere twice. -/
theorem finalize_exits_exactly_once (ctx : Ctx) (sched : FinSchedule)
    (cutoff : Nat) (exit_code : Int) (move_suffix : String)
    (normalized_suffix : Option String)
    (transformed_rows : Option (List Record)) (message : String) (fs : FS) :
    ∃ code msg,
      (finalize ctx sched cutoff exit_code move_suffix normalized_suffix
        transformed_rows message fs).2 = log_email_exit ctx code msg := by
  unfold finalize
  dsimp only
  repeat' split
  all_goals exact ⟨_, _, rfl⟩

-- ---------------------------------------------------------------------------
-- Frame lemmas for the step primitives
-- ---------------------------------------------------------------------------

theorem moveStep_error_eq {d : OpResult} {fs : FS} {src dst : String} {f : FS}
    (h : moveStep d fs src dst = Except.error f) : f = fs := by
  unfold moveStep at h
  cases d with
  | ok =>
      cases hc : fsGet fs src with
      | some c => rw [hc] at h; exact Except.noConfusion h
      | none => rw [hc] at h; injection h with h1; exact h1.symm
  | err => injection h with h1; exact h1.symm
  | errPartial w => injection h with h1; exact h1.symm

theorem moveStep_ok_fsGet {d : OpResult} {fs : FS} {src dst : String} {f : FS}
    (h : moveStep d fs src dst = Except.ok f) (p : String)
    (hs : p ≠ src) (hd : p ≠ dst) : fsGet f p = fsGet fs p := by
  unfold moveStep at h
  cases d with
  | ok =>
      cases hc : fsGet fs src with
      | some c =>
          rw [hc] at h
          injection h with h1
          rw [← h1, fsGet_fsSet_ne _ _ _ _ hd, fsGet_fsErase_ne _ _ _ hs]
      | none => rw [hc] at h; exact Except.noConfusion h
  | err => exact Except.noConfusion h
  | errPartial w => exact Except.noConfusion h

theorem exceptFS_moveStep_fsGet (d : OpResult) (fs : FS) (src dst p : String)
    (hs : p ≠ src) (hd : p ≠ dst) :
    fsGet (exceptFS (moveStep d fs src dst)) p = fsGet fs p := by
  cases hm : moveStep d fs src dst with
  | ok f =>
      simp only [exceptFS]
      exact moveStep_ok_fsGet hm p hs hd
  | error f =>
      simp only [exceptFS]
      rw [moveStep_error_eq hm]

theorem copyStep_ok_fsGet {d : OpResult} {fs : FS} {src dst : String} {f : FS}
    (h : copyStep d fs src dst = Except.ok f) (p : String)
    (hd : p ≠ dst) : fsGet f p = fsGet fs p := by
  unfold copyStep at h
  cases d with
  | ok =>
      cases hc : fsGet fs src with
      | some c =>
          rw [hc] at h
          injection h with h1
          rw [← h1, fsGet_fsSet_ne _ _ _ _ hd]
      | none => rw [hc] at h; exact Except.noConfusion h
  | err => exact Except.noConfusion h
  | errPartial w => exact Except.noConfusion h

theorem copyStep_error_fsGet {d : OpResult} {fs : FS} {src dst : String}
    {f : FS} (h : copyStep d fs src dst = Except.error f) (p : String)
    (hd : p ≠ dst) : fsGet f p = fsGet fs p := by
  unfold copyStep at h
  cases d with
  | ok =>
      cases hc : fsGet fs src with
      | some c => rw [hc] at h; exact Except.noConfusion h
      | none => rw [hc] at h; injection h with h1; rw [← h1]
  | err => injection h with h1; rw [← h1]
  | errPartial w =>
      injection h with h1
      rw [← h1, fsGet_fsSet_ne _ _ _ _ hd]

theorem copyStep_ok_dst {d : OpResult} {fs : FS} {src dst : String} {f : FS}
    (h : copyStep d fs src dst = Except.ok f) :
    fsGet f dst = fsGet fs src := by
  unfold copyStep at h
  cases d with
  | ok =>
      cases hc : fsGet fs src with
      | some c =>
          rw [hc] at h
          injection h with h1
          rw [← h1, fsGet_fsSet_same]
      | none => rw [hc] at h; exact Except.noConfusion h
  | err => exact Except.noConfusion h
  | errPartial w => exact Except.noConfusion h

theorem emptyWriteStep_ok_eq {d : OpResult} {fs : FS} {dst : String} {f : FS}
    (h : emptyWriteStep d fs dst = Except.ok f) : f = fsSet fs dst "" := by
  unfold emptyWriteStep at h
  cases d with
  | ok => injection h with h1; exact h1.symm
  | err => exact Except.noConfusion h
  | errPartial w => exact Except.noConfusion h

theorem rmtreeFS_fsGet (fs : FS) (dir p : String)
    (hp : strHasPrefix (dir ++ "/") p = false) :
    fsGet (rmtreeFS fs dir) p = fsGet fs p := by
  induction fs with
  | nil => rfl
  | cons kv rest ih =>
      rcases kv with ⟨k, v⟩
      by_cases hk : strHasPrefix (dir ++ "/") k = true
      · have hneg : (!(strHasPrefix (dir ++ "/") k)) = false := by
          rw [hk]; rfl
        simp only [rmtreeFS, List.filter_cons, hneg, Bool.false_eq_true,
          if_false] at *
        rw [ih]
        have hkp : ¬ (k = p) := by
          intro he
          rw [he, hp] at hk
          exact absurd hk (by decide)
        simp only [fsGet, alistGet?]
        rw [if_neg hkp]
      · have hkf : strHasPrefix (dir ++ "/") k = false :=
          Bool.eq_false_iff.mpr hk
        have hpos : (!(strHasPrefix (dir ++ "/") k)) = true := by
          rw [hkf]; rfl
        simp only [rmtreeFS, List.filter_cons, hpos, if_true] at *
        simp only [fsGet, alistGet?]
        by_cases hkq : k = p
        · rw [if_pos hkq, if_pos hkq]
        · rw [if_neg hkq, if_neg hkq]
          exact ih

theorem insertByTs_mem {x y : Nat × String} {l : List (Nat × String)}
    (h : y ∈ insertByTs x l) : y = x ∨ y ∈ l := by
  induction l with
  | nil => simpa [insertByTs] using h
  | cons z zs ih =>
      unfold insertByTs at h
      by_cases hle : z.1 ≤ x.1
      · rw [if_pos hle] at h
        rcases List.mem_cons.mp h with rfl | h'
        · exact Or.inr (List.mem_cons_self _ _)
        · rcases ih h' with h1 | h2
          · exact Or.inl h1
          · exact Or.inr (List.mem_cons_of_mem _ h2)
      · rw [if_neg hle] at h
        rcases List.mem_cons.mp h with rfl | h'
        · exact Or.inl rfl
        · exact Or.inr h'

theorem pySortByTs_mem {l : List (Nat × String)} {x : Nat × String}
    (h : x ∈ pySortByTs l) : x ∈ l := by
  unfold pySortByTs at h
  suffices hgen : ∀ (l2 : List (Nat × String)) (acc : List (Nat × String)),
      x ∈ l2.foldl (fun acc y => insertByTs y acc) acc → x ∈ acc ∨ x ∈ l2 by
    rcases hgen l [] h with h1 | h2
    · exact absurd h1 (List.not_mem_nil x)
    · exact h2
  intro l2
  induction l2 with
  | nil => intro acc h2; exact Or.inl h2
  | cons z zs ih =>
      intro acc h2
      rcases ih (insertByTs z acc) h2 with h1 | h3
      · rcases insertByTs_mem h1 with rfl | h4
        · exact Or.inr (List.mem_cons_self _ _)
        · exact Or.inl h4
      · exact Or.inr (List.mem_cons_of_mem _ h3)

theorem listBackupNames_mem {fs : FS} {dir : String} {n : String}
    (h : n ∈ listBackupNames fs dir) :
    n ≠ "" ∧ n.data.contains '/' = false := by
  unfold listBackupNames at h
  rw [List.mem_filterMap] at h
  obtain ⟨kv, _, hf⟩ := h
  dsimp only at hf
  split at hf
  · split at hf
    · next hcond =>
        injection hf with h1
        rw [← h1]
        exact hcond
    · exact Option.noConfusion hf
  · exact Option.noConfusion hf

theorem rotate_entry_name {names : List String} {x : Nat × String}
    (h : x ∈ names.filterMap fun filename =>
      if strEndsWith "-duplicate-index.csv" filename = true then
        match parseRunTs (dropSuffixStr "-duplicate-index.csv" filename) with
        | some timestamp => some (timestamp, filename)
        | none => none
      else none) : x.2 ∈ names := by
  rw [List.mem_filterMap] at h
  obtain ⟨fn, hfn, hf⟩ := h
  split at hf
  · split at hf
    · injection hf with h1
      rw [← h1]
      exact hfn
    · exact Option.noConfusion hf
  · exact Option.noConfusion hf

theorem no_slash_prefix_of_contains {n : String}
    (h : n.data.contains '/' = false) : strHasPrefix "/" n = false := by
  unfold strHasPrefix
  cases hd : n.data with
  | nil => decide
  | cons c rest =>
      rw [hd] at h
      have hc : ('/' == c) = false := by
        cases hcc : ('/' == c) with
        | false => rfl
        | true =>
            exfalso
            have hce : c = '/' := (beq_iff_eq.mp hcc).symm
            rw [hce] at h
            simp [List.contains_cons] at h
      show isPrefixList ['/'] (c :: rest) = false
      simp [isPrefixList, hc]

theorem joinPath_name_ne {bd n p : String} (hbd : bd ≠ "")
    (hbds : strEndsWith "/" bd = false) (hn : n.data.contains '/' = false)
    (hp : strHasPrefix (bd ++ "/") p = false) : joinPath bd n ≠ p := by
  intro he
  rw [joinPath_eq_of _ _ (no_slash_prefix_of_contains hn) hbd hbds] at he
  have hpre := strHasPrefix_append (bd ++ "/") n
  rw [he] at hpre
  rw [hp] at hpre
  exact absurd hpre (by decide)

theorem foldl_fsErase_fsGet (bd : String) (l : List (Nat × String)) (g : FS)
    (p : String) (h : ∀ x ∈ l, joinPath bd x.2 ≠ p) :
    fsGet (l.foldl (fun f x => fsErase f (joinPath bd x.2)) g) p =
      fsGet g p := by
  induction l generalizing g with
  | nil => rfl
  | cons x xs ih =>
      simp only [List.foldl_cons]
      rw [ih _ (fun y hy => h y (List.mem_cons_of_mem _ hy))]
      exact fsGet_fsErase_ne _ _ _
        (fun he => h x (List.mem_cons_self _ _) he.symm)

theorem rotate_fsGet_outside (fs : FS) (bd : String) (cutoff : Nat)
    (p : String) (hbd : bd ≠ "") (hbds : strEndsWith "/" bd = false)
    (hp : strHasPrefix (bd ++ "/") p = false) :
    fsGet (rotate_duplicate_backups fs bd cutoff) p = fsGet fs p := by
  unfold rotate_duplicate_backups
  dsimp only
  apply foldl_fsErase_fsGet
  intro x hx
  have hx' : x ∈ pySortByTs ((listBackupNames fs bd).filterMap fun filename =>
      if strEndsWith "-duplicate-index.csv" filename = true then
        match parseRunTs (dropSuffixStr "-duplicate-index.csv" filename) with
        | some timestamp => some (timestamp, filename)
        | none => none
      else none) := by
    rcases List.mem_append.mp hx with h1 | h2
    · exact List.mem_of_mem_filter h1
    · exact List.mem_of_mem_filter (List.take_subset _ _ h2)
  exact joinPath_name_ne hbd hbds
    (listBackupNames_mem (rotate_entry_name (pySortByTs_mem hx'))).2 hp

/-- C5: empty-commit idempotence. When `finalize` is handed no accepted rows
(`transformed_rows` is None or the empty list), the on-disk duplicate index
file keeps its existence and byte content through every path of the run —
success or any failure schedule — given the non-aliasing path layout the
system constructs (the index path distinct from the run's source, processed,
failed, temp and normalized targets, and outside the backup and temp
directories that rotation and cleanup touch). -/
theorem finalize_empty_rows_preserves_index (ctx : Ctx) (sched : FinSchedule)
    (cutoff : Nat) (exit_code : Int) (move_suffix : String)
    (normalized_suffix : Option String)
    (transformed_rows : Option (List Record)) (message : String) (fs : FS)
    (hrows : transformed_rows = none ∨ transformed_rows = some [])
    (d1 : ctx.duplicateIndexPath ≠ ctx.csvFilePath)
    (d2 : ctx.duplicateIndexPath ≠ finalCsvPathOf ctx move_suffix)
    (d3 : ctx.duplicateIndexPath ≠ failedPathOf ctx)
    (d4 : ctx.duplicateIndexPath ≠ ctx.tempOutputPath)
    (d5 : normalized_suffix.map (normalizedPathOf ctx) ≠
      some ctx.duplicateIndexPath)
    (hb1 : ctx.backupDir ≠ "")
    (hb2 : strEndsWith "/" ctx.backupDir = false)
    (hb3 : strHasPrefix (ctx.backupDir ++ "/") ctx.duplicateIndexPath = false)
    (ht1 : strHasPrefix (ctx.tempDir ++ "/") ctx.duplicateIndexPath = false) :
    fsGet (finalize ctx sched cutoff exit_code move_suffix normalized_suffix
      transformed_rows message fs).1 ctx.duplicateIndexPath =
    fsGet fs ctx.duplicateIndexPath := by
  have hre : transformed_rows.getD [] = ([] : List Record) := by
    rcases hrows with h | h <;> simp [h]
  unfold finalize
  rw [hre]
  simp only [List.isEmpty_nil, eq_self_iff_true, if_true]
  cases hm2 : moveStep sched.moveCsv fs ctx.csvFilePath
      (finalCsvPathOf ctx move_suffix) with
  | error fs2e =>
      rw [exceptFS_moveStep_fsGet _ _ _ _ _ d1 d3, moveStep_error_eq hm2]
  | ok fs2 =>
      have hfs2 : fsGet fs2 ctx.duplicateIndexPath =
          fsGet fs ctx.duplicateIndexPath := moveStep_ok_fsGet hm2 _ d1 d2
      cases hnsfx : normalized_suffix with
      | none =>
          dsimp only
          rw [rmtreeFS_fsGet _ _ _ ht1,
            rotate_fsGet_outside _ _ _ _ hb1 hb2 hb3, hfs2]
      | some nsfx =>
          dsimp only
          have d5' : ctx.duplicateIndexPath ≠ normalizedPathOf ctx nsfx := by
            intro he
            rw [hnsfx] at d5
            exact d5 (by simp [he])
          by_cases htp : ctx.tempOutputPath = ""
          · rw [if_pos htp]
            dsimp only
            rw [rmtreeFS_fsGet _ _ _ ht1,
              rotate_fsGet_outside _ _ _ _ hb1 hb2 hb3, hfs2]
          · rw [if_neg htp]
            cases hm4 : moveStep sched.moveNorm fs2 ctx.tempOutputPath
                (normalizedPathOf ctx nsfx) with
            | error fs4e =>
                dsimp only
                rw [exceptFS_moveStep_fsGet _ _ _ _ _ d2 d3,
                  moveStep_error_eq hm4, hfs2]
            | ok fs4 =>
                dsimp only
                rw [rmtreeFS_fsGet _ _ _ ht1,
                  rotate_fsGet_outside _ _ _ _ hb1 hb2 hb3,
                  moveStep_ok_fsGet hm4 _ d4 d5', hfs2]

theorem finalize_empty_rows_preserves_index_witness :
    let ctx : Ctx := ⟨"in/f.csv", "f.csv", "20200101-120000", "tmp/out.csv",
      "proc", "fail", "norm", "tmp", "di/dup.csv", "di/backups"⟩
    let sched : FinSchedule := ⟨OpResult.ok, OpResult.ok, OpResult.ok,
      OpResult.ok, OpResult.ok, OpResult.ok, OpResult.ok, OpResult.ok,
      OpResult.ok⟩
    let fs : FS := [("in/f.csv", "RAW"), ("tmp/out.csv", "OUT"),
      ("di/dup.csv", "duplicate_key\r\nK1\r\n")]
    fsGet (finalize ctx sched 20250101000000 0 ".csv" (some ".csv") (some [])
      "COMPLETED" fs).1 "di/dup.csv" = fsGet fs "di/dup.csv" :=
  finalize_empty_rows_preserves_index _ _ _ _ _ _ _ _ _
    (Or.inr rfl) (by decide) (by decide) (by decide) (by decide) (by decide)
    (by decide) (by decide) (by decide) (by decide)

theorem exceptFS_ok (f : FS) : exceptFS (Except.ok f) = f := rfl

theorem moveStep_not_ok {d : OpResult} (h : d ≠ OpResult.ok) (fs : FS)
    (src dst : String) : moveStep d fs src dst = Except.error fs := by
  cases d with
  | ok => exact absurd rfl h
  | err => rfl
  | errPartial w => rfl

theorem create_updated_fsGet_upd_isSome (fs : FS) (ip bd ts fn : String)
    (r : Record) (rs : List Record) :
    (fsGet (create_updated_duplicate_index fs ip bd ts fn (r :: rs))
      (updatedIndexPath ip bd ts fn)).isSome = true := by
  unfold create_updated_duplicate_index append_to_duplicate_index
  dsimp only
  cases hc : fsGet fs ip <;> simp [fsGet_fsSet_same]

/-- C1 amended: rollback on final-step failure. For a run with accepted rows
whose steps 1-3 succeed, whose step-4 move of the normalized output raises,
and whose compensating restore copy itself succeeds, under the non-aliasing
path layout the system constructs, the on-disk duplicate index after the
terminal report holds exactly the bytes it held before step 3 began when an
index file existed then; when no index file existed before step 3, the
restore leaves an *empty index file* at the index path (the empty restore
marker created in step 3), not the absence that preceded the run. Both cases
are the conclusion `some ((fsGet fs ip).getD "")`; steps 1-2 do not touch
the index path under the same layout, so the state before step 3 equals the
initial one. -/
theorem finalize_step4_rollback (ctx : Ctx) (sched : FinSchedule)
    (cutoff : Nat) (exit_code : Int) (move_suffix nsfx : String)
    (transformed_rows : Option (List Record)) (r : Record) (rs : List Record)
    (message : String) (fs : FS) (upd : String)
    (hupd : upd = updatedIndexPath ctx.duplicateIndexPath ctx.backupDir
      ctx.runTimestamp ctx.csvFilename)
    (hrows : transformed_rows = some (r :: rs))
    (hprep : sched.prep = OpResult.ok)
    (hmv : sched.moveCsv = OpResult.ok)
    (hsrc : (fsGet fs ctx.csvFilePath).isSome = true)
    (hcp : sched.copyPrev = OpResult.ok)
    (hcm : sched.commit = OpResult.ok)
    (hnm : sched.moveNorm ≠ OpResult.ok)
    (htmp : ctx.tempOutputPath ≠ "")
    (hrst : sched.restore = OpResult.ok)
    (d1 : ctx.duplicateIndexPath ≠ ctx.csvFilePath)
    (d2 : ctx.duplicateIndexPath ≠ finalCsvPathOf ctx move_suffix)
    (d3 : ctx.duplicateIndexPath ≠ failedPathOf ctx)
    (d4 : ctx.duplicateIndexPath ≠ prevIndexPathOf ctx)
    (d5 : ctx.duplicateIndexPath ≠ upd)
    (d6 : ctx.csvFilePath ≠ upd)
    (d7 : prevIndexPathOf ctx ≠ upd)
    (d8 : finalCsvPathOf ctx move_suffix ≠ upd) :
    fsGet (finalize ctx sched cutoff exit_code move_suffix (some nsfx)
      transformed_rows message fs).1 ctx.duplicateIndexPath =
    some ((fsGet fs ctx.duplicateIndexPath).getD "") := by
  subst hrows
  obtain ⟨c, hc⟩ := Option.isSome_iff_exists.mp hsrc
  have hu0 := create_updated_fsGet_upd_isSome fs ctx.duplicateIndexPath
    ctx.backupDir ctx.runTimestamp ctx.csvFilename r rs
  rw [← hupd] at hu0
  obtain ⟨u, hu⟩ := Option.isSome_iff_exists.mp hu0
  unfold finalize
  simp only [Option.getD_some, List.isEmpty_cons, Bool.false_eq_true,
    if_false, ← hupd, hprep]
  set fs1 := create_updated_duplicate_index fs ctx.duplicateIndexPath
    ctx.backupDir ctx.runTimestamp ctx.csvFilename (r :: rs) with hfs1
  have hc1 : fsGet fs1 ctx.csvFilePath = some c := by
    rw [hfs1, create_updated_fsGet_ne _ _ _ _ _ _ _ (by rw [← hupd]; exact d6)]
    exact hc
  have hip1 : fsGet fs1 ctx.duplicateIndexPath =
      fsGet fs ctx.duplicateIndexPath := by
    rw [hfs1]
    exact create_updated_fsGet_ne _ _ _ _ _ _ _ (by rw [← hupd]; exact d5)
  have e1 : moveStep sched.moveCsv fs1 ctx.csvFilePath
      (finalCsvPathOf ctx move_suffix) =
      Except.ok (fsSet (fsErase fs1 ctx.csvFilePath)
        (finalCsvPathOf ctx move_suffix) c) := by
    rw [hmv]
    unfold moveStep
    rw [hc1]
  simp only [e1]
  set fs2 := fsSet (fsErase fs1 ctx.csvFilePath)
    (finalCsvPathOf ctx move_suffix) c with hfs2
  have hip2 : fsGet fs2 ctx.duplicateIndexPath =
      fsGet fs ctx.duplicateIndexPath := by
    rw [hfs2, fsGet_fsSet_ne _ _ _ _ d2, fsGet_fsErase_ne _ _ _ d1, hip1]
  have hupd2 : fsGet fs2 upd = some u := by
    rw [hfs2, fsGet_fsSet_ne _ _ _ _ (Ne.symm d8),
      fsGet_fsErase_ne _ _ _ (Ne.symm d6), hu]
  cases hidx : fsGet fs ctx.duplicateIndexPath with
  | some origC =>
      rw [hidx] at hip2
      simp only [hip2, Option.isSome_some, if_true]
      have e3 : copyStep sched.copyPrev fs2 ctx.duplicateIndexPath
          (prevIndexPathOf ctx) =
          Except.ok (fsSet fs2 (prevIndexPathOf ctx) origC) := by
        rw [hcp]
        unfold copyStep
        rw [hip2]
      simp only [e3]
      have hupd3 : fsGet (fsSet fs2 (prevIndexPathOf ctx) origC) upd =
          some u := by
        rw [fsGet_fsSet_ne _ _ _ _ (Ne.symm d7), hupd2]
      have e4 : copyStep sched.commit
          (fsSet fs2 (prevIndexPathOf ctx) origC) upd
          ctx.duplicateIndexPath =
          Except.ok (fsSet (fsSet fs2 (prevIndexPathOf ctx) origC)
            ctx.duplicateIndexPath u) := by
        rw [hcm]
        unfold copyStep
        rw [hupd3]
      simp only [e4, if_neg htmp, moveStep_not_ok hnm]
      have e5 : copyStep sched.restore
          (fsSet (fsSet fs2 (prevIndexPathOf ctx) origC)
            ctx.duplicateIndexPath u)
          (prevIndexPathOf ctx) ctx.duplicateIndexPath =
          Except.ok (fsSet (fsSet (fsSet fs2 (prevIndexPathOf ctx) origC)
            ctx.duplicateIndexPath u) ctx.duplicateIndexPath origC) := by
        rw [hrst]
        unfold copyStep
        rw [fsGet_fsSet_ne _ _ _ _ (Ne.symm d4), fsGet_fsSet_same]
      simp only [e5, exceptFS_ok]
      rw [exceptFS_moveStep_fsGet _ _ _ _ _ d2 d3, fsGet_fsSet_same]
      rfl
  | none =>
      rw [hidx] at hip2
      simp only [hip2, Option.isSome_none, Bool.false_eq_true, if_false]
      have e3 : emptyWriteStep sched.copyPrev fs2 (prevIndexPathOf ctx) =
          Except.ok (fsSet fs2 (prevIndexPathOf ctx) "") := by
        rw [hcp]
        rfl
      simp only [e3]
      have hupd3 : fsGet (fsSet fs2 (prevIndexPathOf ctx) "") upd =
          some u := by
        rw [fsGet_fsSet_ne _ _ _ _ (Ne.symm d7), hupd2]
      have e4 : copyStep sched.commit
          (fsSet fs2 (prevIndexPathOf ctx) "") upd
          ctx.duplicateIndexPath =
          Except.ok (fsSet (fsSet fs2 (prevIndexPathOf ctx) "")
            ctx.duplicateIndexPath u) := by
        rw [hcm]
        unfold copyStep
        rw [hupd3]
      simp only [e4, if_neg htmp, moveStep_not_ok hnm]
      have e5 : copyStep sched.restore
          (fsSet (fsSet fs2 (prevIndexPathOf ctx) "")
            ctx.duplicateIndexPath u)
          (prevIndexPathOf ctx) ctx.duplicateIndexPath =
          Except.ok (fsSet (fsSet (fsSet fs2 (prevIndexPathOf ctx) "")
            ctx.duplicateIndexPath u) ctx.duplicateIndexPath "") := by
        rw [hrst]
        unfold copyStep
        rw [fsGet_fsSet_ne _ _ _ _ (Ne.symm d4), fsGet_fsSet_same]
      simp only [e5, exceptFS_ok]
      rw [exceptFS_moveStep_fsGet _ _ _ _ _ d2 d3, fsGet_fsSet_same]
      rfl

/-- A concrete run context following the layout of `build_paths`. -/
def ctxW : Ctx :=
  ⟨"in/f.csv", "f.csv", "20200101-120000", "tmp/out.csv", "proc", "fail",
   "norm", "tmp", "di/dup.csv", "di/backups"⟩

/-- A schedule in which every operation succeeds except the step-4 move of
the normalized output. -/
def schedRollback : FinSchedule :=
  ⟨OpResult.ok, OpResult.ok, OpResult.ok, OpResult.ok, OpResult.ok,
   OpResult.ok, OpResult.err, OpResult.ok, OpResult.ok⟩

theorem finalize_step4_rollback_witness :
    fsGet (finalize ctxW schedRollback 0 0 ".csv" (some ".csv")
      (some [[("duplicate_key", "K2")]]) "COMPLETED"
      [("in/f.csv", "RAW"), ("tmp/out.csv", "OUT"),
       ("di/dup.csv", "duplicate_key\r\nK1\r\n")]).1 "di/dup.csv" =
    some ((fsGet [("in/f.csv", "RAW"), ("tmp/out.csv", "OUT"),
       ("di/dup.csv", "duplicate_key\r\nK1\r\n")] "di/dup.csv").getD "") :=
  finalize_step4_rollback ctxW schedRollback 0 0 ".csv" ".csv"
    (some [[("duplicate_key", "K2")]]) [("duplicate_key", "K2")] []
    "COMPLETED"
    [("in/f.csv", "RAW"), ("tmp/out.csv", "OUT"),
     ("di/dup.csv", "duplicate_key\r\nK1\r\n")]
    (updatedIndexPath "di/dup.csv" "di/backups" "20200101-120000" "f.csv")
    rfl rfl rfl rfl (by decide) rfl rfl (by decide) (by decide) rfl
    (by decide) (by decide) (by decide) (by decide) (by decide) (by decide)
    (by decide) (by decide)

/-- C1 counterexample: the claim's parenthetical case fails. In a run whose
steps 1-3 succeed with no pre-existing index file and whose step-4 move then
raises, the rollback copies back the *empty restore marker* created in step
3, so after the terminal report (exit 92, the normalized-output move error)
an empty index file exists at the index path, whereas before step 3 began no
index file existed at all (steps 1 and 2 touch only the snapshot and the
processed target, so the initial state shown here is the pre-step-3 state).
Empty-file existence is not byte-identical to absence. -/
theorem finalize_rollback_claim_cex :
    fsGet (finalize ctxW schedRollback 0 0 ".csv" (some ".csv")
      (some [[("duplicate_key", "K2")]]) "COMPLETED"
      [("in/f.csv", "RAW"), ("tmp/out.csv", "OUT")]).1 "di/dup.csv" =
      some "" ∧
    fsGet [("in/f.csv", "RAW"), ("tmp/out.csv", "OUT")] "di/dup.csv" =
      none ∧
    (finalize ctxW schedRollback 0 0 ".csv" (some ".csv")
      (some [[("duplicate_key", "K2")]]) "COMPLETED"
      [("in/f.csv", "RAW"), ("tmp/out.csv", "OUT")]).2 =
      log_email_exit ctxW 92 normMoveErrMsg := by
  refine ⟨by decide, by decide, by decide⟩

/-- A schedule in which the step-3 replacement of the live index raises
mid-copy, after truncating the destination: shutil.copyfile opens the
destination for writing (truncating it) and then copies chunks, so a failure
such as a full disk leaves the live index partial — here empty. -/
def schedPartialCommit : FinSchedule :=
  ⟨OpResult.ok, OpResult.ok, OpResult.ok, OpResult.ok, OpResult.errPartial "",
   OpResult.ok, OpResult.ok, OpResult.ok, OpResult.ok⟩

/-- C2: the step-3 replace is not atomic and its failure handler performs no
index restore, so a mid-copy failure corrupts the live index. In this run
the index held one committed row before finalize began (and before step 3,
since steps 1-2 do not touch it); the copyfile onto the live index fails
after truncation, the handler only parks the source file and reports exit 93,
and after the terminal report the on-disk index is empty — not byte-identical
to its pre-step-3 content, contradicting the claim and the spec's
"atomically replace". -/
theorem finalize_commit_partial_corrupts_index :
    fsGet (finalize ctxW schedPartialCommit 0 0 ".csv" (some ".csv")
      (some [[("duplicate_key", "K2")]]) "COMPLETED"
      [("in/f.csv", "RAW"), ("tmp/out.csv", "OUT"),
       ("di/dup.csv", "duplicate_key\r\nOLD\r\n")]).1 "di/dup.csv" =
      some "" ∧
    fsGet [("in/f.csv", "RAW"), ("tmp/out.csv", "OUT"),
       ("di/dup.csv", "duplicate_key\r\nOLD\r\n")] "di/dup.csv" =
      some "duplicate_key\r\nOLD\r\n" ∧
    (finalize ctxW schedPartialCommit 0 0 ".csv" (some ".csv")
      (some [[("duplicate_key", "K2")]]) "COMPLETED"
      [("in/f.csv", "RAW"), ("tmp/out.csv", "OUT"),
       ("di/dup.csv", "duplicate_key\r\nOLD\r\n")]).2 =
      log_email_exit ctxW 93 commitErrMsg := by
  refine ⟨by decide, by decide, by decide⟩

end BankCsv
